import Mathlib

/-!
Verification of the claim/status/leaderboard core of the project-tracking
application.  The repository carries two revisions of the core operations:

* `AppMain` embeds the functions of the top-level `app.py`
  (`update_problem_status`, `claim_problem`, `unclaim_problem`);
* `DbProblems` embeds the functions of `src/database/problems.py`
  (`complete_problem`, `update_problem_status`, `claim_problem`,
  `unclaim_problem`);
* `Leaderboard` embeds `src/database/leaderboard.py`.

The SQLite `problems` table is embedded as a `List Problem`; an SQL
`UPDATE ... WHERE cond` is a map over the list that rewrites exactly the
rows satisfying the condition; `CURRENT_TIMESTAMP` is an explicit `now`
argument; SQL `NULL` on `claimed_by_user_id`, `completed_at` and
`description` is `Option`.  Every function returns the resulting table
together with the result the Python code reports to the user
(`st.success` / `st.error`, mapped to the result kinds of the spec).
-/

namespace Tracker

/-- One row of the `problems` table. -/
structure Problem where
  id : Nat
  name : String
  description : Option String
  status : String
  projectId : Option Nat
  claimedBy : Option Nat
  createdAt : Nat
  completedAt : Option Nat
deriving DecidableEq

/-- The result kinds that the operations report, following the error
taxonomy of the spec (success, NotFound, AlreadyClaimed, InvalidUser,
ClaimConflict). -/
inductive Res
  | success
  | notFound
  | alreadyClaimed
  | invalidUser
  | claimConflict
deriving DecidableEq

/-- Python test `result[0] is not None and result[0] != 0`: the claimant
column holds a real (non-NULL, non-zero) user. -/
def claimantSet : Option Nat → Bool
  | none => false
  | some u => u != 0

/-- SQL condition `claimed_by_user_id IS NULL OR claimed_by_user_id = 0`. -/
def claimantFreeB : Option Nat → Bool
  | none => true
  | some u => u == 0

/-- `SELECT ... FROM problems WHERE id = ?` followed by `fetchone()`. -/
def findProblem (db : List Problem) (pid : Nat) : Option Problem :=
  db.find? (fun p => p.id == pid)

/-- `UPDATE problems SET ... WHERE cond`: rewrite every row satisfying
`cond` with `f`, keep the other rows. -/
def updateWhere (db : List Problem) (cond : Problem → Bool)
    (f : Problem → Problem) : List Problem :=
  db.map (fun p => if cond p then f p else p)

namespace AppMain

/-- `update_problem_status` of `app.py`: one `UPDATE` setting
`completed_at = CURRENT_TIMESTAMP` when the new status is `Completed`,
a second `UPDATE` setting `completed_at = NULL` otherwise; `st.success`
is reported in both cases (also when no row has the given id). -/
def update_problem_status (db : List Problem) (pid : Nat) (status : String)
    (now : Nat) : List Problem × Res :=
  if status = "Completed" then
    (updateWhere db (fun q => q.id == pid)
      (fun q => { q with status := status, completedAt := some now }), .success)
  else
    (updateWhere db (fun q => q.id == pid)
      (fun q => { q with status := status, completedAt := none }), .success)

/-- `claim_problem` of `app.py`: read the current claimant (NotFound when
the row is missing, AlreadyClaimed when it is a valid user); inside the
transaction reject a missing/zero user id, run the conditional
`UPDATE ... WHERE id = ? AND (claimed_by_user_id IS NULL OR claimed_by_user_id = 0)`,
re-read the row and report success only when the stored claimant is the
requested user and the status is `In Progress`; otherwise the transaction
is rolled back (the table is returned unchanged) with a claim-conflict
error. -/
def claim_problem (db : List Problem) (pid : Nat) (uid : Option Nat) :
    List Problem × Res :=
  match findProblem db pid with
  | none => (db, .notFound)
  | some p =>
    if claimantSet p.claimedBy then (db, .alreadyClaimed)
    else if uid = none ∨ uid = some 0 then (db, .invalidUser)
    else
      let db1 := updateWhere db
        (fun q => q.id == pid && claimantFreeB q.claimedBy)
        (fun q => { q with claimedBy := uid, status := "In Progress" })
      match findProblem db1 pid with
      | none => (db, .claimConflict)
      | some q =>
          if q.claimedBy = uid ∧ q.status = "In Progress" then (db1, .success)
          else (db, .claimConflict)

/-- `unclaim_problem` of `app.py` (identical to the one of
`src/database/problems.py`): unconditionally clear the claimant and reset
the status to `Open`; `completed_at` is not touched; `st.success` is
always reported. -/
def unclaim_problem (db : List Problem) (pid : Nat) : List Problem × Res :=
  (updateWhere db (fun q => q.id == pid)
    (fun q => { q with claimedBy := none, status := "Open" }), .success)

end AppMain

namespace DbProblems

/-- `complete_problem` of `src/database/problems.py`: set the status to
`Completed`, stamp `completed_at`, and rewrite the description with the
SQL `CASE`: a NULL or empty description becomes the reference, otherwise
the text `"\n\nReference: " ++ reference` is appended. -/
def complete_problem (db : List Problem) (pid : Nat) (reference : String)
    (now : Nat) : List Problem :=
  updateWhere db (fun q => q.id == pid)
    (fun q => { q with
      status := "Completed",
      completedAt := some now,
      description := some (match q.description with
        | none => reference
        | some d => if d = "" then reference
                    else d ++ "\n\nReference: " ++ reference) })

/-- `update_problem_status` of `src/database/problems.py`: one `UPDATE`
whose `CASE` stamps `completed_at` when the new status is `Completed` and
otherwise keeps the stored `completed_at` (it does not clear it);
`st.success` is always reported. -/
def update_problem_status (db : List Problem) (pid : Nat) (new_status : String)
    (now : Nat) : List Problem × Res :=
  (updateWhere db (fun q => q.id == pid)
    (fun q => { q with
      status := new_status,
      completedAt := if new_status = "Completed" then some now
                     else q.completedAt }), .success)

/-- `claim_problem` of `src/database/problems.py`: a single unconditional
`UPDATE` writing the claimant and the status `In Progress`; no check of
the current claimant, no check of the user id; `st.success` is always
reported. -/
def claim_problem (db : List Problem) (pid : Nat) (uid : Option Nat) :
    List Problem × Res :=
  (updateWhere db (fun q => q.id == pid)
    (fun q => { q with claimedBy := uid, status := "In Progress" }), .success)

/-- `unclaim_problem` of `src/database/problems.py` (same statement as in
`app.py`). -/
def unclaim_problem (db : List Problem) (pid : Nat) : List Problem × Res :=
  (updateWhere db (fun q => q.id == pid)
    (fun q => { q with claimedBy := none, status := "Open" }), .success)

end DbProblems

/-- The completion-timestamp invariant of the spec for one row:
`status == Completed` exactly when `completed_at` is set. -/
def statusTimestampInv (p : Problem) : Prop :=
  p.status = "Completed" ↔ p.completedAt.isSome

/-- The invariant for a whole table. -/
def dbInv (db : List Problem) : Prop :=
  ∀ p ∈ db, statusTimestampInv p

instance (p : Problem) : Decidable (statusTimestampInv p) := by
  unfold statusTimestampInv; infer_instance

instance (db : List Problem) : Decidable (dbInv db) := by
  unfold dbInv; infer_instance

/-- A fresh, unclaimed, open problem used as concrete test data. -/
def p0 : Problem :=
  { id := 1, name := "p", description := none, status := "Open",
    projectId := none, claimedBy := none, createdAt := 0,
    completedAt := none }

/-- A completed problem, claimed by user 1, with its timestamp set. -/
def exP : Problem :=
  { p0 with
    status := "Completed", claimedBy := some 1, completedAt := some 5 }

/-- An in-progress problem claimed by user 1. -/
def claimedP : Problem :=
  { p0 with status := "In Progress", claimedBy := some 1 }

/-- One row of the `users` table. -/
structure User where
  id : Nat
  username : String
deriving DecidableEq

/-- One row of the `categories` table. -/
structure Category where
  id : Nat
  name : String
  points : Int
deriving DecidableEq

/-- One row of the `problem_categories` junction table. -/
structure ProblemCategory where
  problem_id : Nat
  category_id : Nat
deriving DecidableEq

/-- The tables read by the leaderboard queries of
`src/database/leaderboard.py`. -/
structure DB where
  users : List User
  categories : List Category
  problems : List Problem
  problem_categories : List ProblemCategory
deriving DecidableEq

/-- The WHERE clause of `get_user_points`:
`p.claimed_by_user_id = ? AND p.status = 'Completed'`. -/
def completedBy (p : Problem) (uid : Nat) : Bool :=
  p.claimedBy == some uid && p.status == "Completed"

/-- `get_user_points` of `src/database/leaderboard.py`: inner-join
problems to problem_categories on problem id and those to categories on
category id, keep the rows claimed by the user with status Completed,
and take `SUM(c.points)`; `SUM` over no rows is SQL NULL, which the
Python turns into 0 — here simply the sum of the empty list. -/
def get_user_points (db : DB) (uid : Nat) : Int :=
  ((db.problems.filter (fun p => completedBy p uid)).flatMap (fun p =>
    (db.problem_categories.filter (fun pc => pc.problem_id == p.id)).flatMap
      (fun pc =>
        (db.categories.filter (fun c => c.id == pc.category_id)).map
          (fun c => c.points)))).sum

/-- Following the spec wording, for comparison with the query: the point
weight of the category a junction row refers to (0 for a dangling id). -/
def categoryWeight (db : DB) (cid : Nat) : Int :=
  match db.categories.find? (fun c => c.id == cid) with
  | some c => c.points
  | none => 0

/-- Following the spec wording: the sum of the point weights of the
categories associated to a problem (an empty association sums to 0). -/
def problemPointsSpec (db : DB) (p : Problem) : Int :=
  ((db.problem_categories.filter (fun pc => pc.problem_id == p.id)).map
    (fun pc => categoryWeight db pc.category_id)).sum

/-- Following the spec wording: the sum over all problems with
claimant == userId and status == Completed of their category weights. -/
def totalPointsSpec (db : DB) (uid : Nat) : Int :=
  ((db.problems.filter (fun p => completedBy p uid)).map
    (fun p => problemPointsSpec db p)).sum

/-- Stable insertion for `ORDER BY total_points DESC`: the row is placed
before the first stored row whose points do not exceed its own, so rows
with equal points keep their relative order; the query has no second
sort key. -/
def insertPointsDesc (x : String × Int) :
    List (String × Int) → List (String × Int)
  | [] => [x]
  | y :: ys => if y.2 ≤ x.2 then x :: y :: ys else y :: insertPointsDesc x ys

/-- Sort by points descending (stable insertion sort). -/
def sortPointsDesc : List (String × Int) → List (String × Int)
  | [] => []
  | x :: xs => insertPointsDesc x (sortPointsDesc xs)

/-- `get_leaderboard` of `src/database/leaderboard.py`: one output row
per user (`GROUP BY u.id, u.username` over the users table in table
order); for each user the LEFT JOINs contribute exactly the point rows
of `get_user_points` (users without completed claimed problems get a
single all-NULL row, and `COALESCE(SUM(c.points), 0)` turns that into
0, the empty sum); the rows are then ordered by total points descending
with no further sort key. -/
def get_leaderboard (db : DB) : List (String × Int) :=
  sortPointsDesc (db.users.map (fun u => (u.username, get_user_points db u.id)))

/-- `display_leaderboard` of `src/database/leaderboard.py`: the table
shown pairs the rank column `range(1, len(leaderboard) + 1)` with the
username and points columns of `get_leaderboard`. -/
def display_leaderboard (db : DB) : List (Nat × String × Int) :=
  (get_leaderboard db).enum.map (fun e => (e.1 + 1, e.2))

/-- Two users with equal (zero) totals: "bob" has the smaller user id
(earlier table row), "alice" the lexicographically smaller name. -/
def tieDB : DB :=
  { users := [{ id := 1, username := "bob" }, { id := 2, username := "alice" }],
    categories := [], problems := [], problem_categories := [] }

/-- The score scenario of the spec: user 1 completed problem 1 (tagged
with categories worth 3 and 5 points) and problem 2 (no categories). -/
def scoreDB : DB :=
  { users := [{ id := 1, username := "alice" }],
    categories := [{ id := 1, name := "catA", points := 3 },
                   { id := 2, name := "catB", points := 5 }],
    problems := [{ p0 with
                   id := 1, status := "Completed", claimedBy := some 1,
                   completedAt := some 1 },
                 { p0 with
                   id := 2, status := "Completed", claimedBy := some 1,
                   completedAt := some 1 }],
    problem_categories := [{ problem_id := 1, category_id := 1 },
                           { problem_id := 1, category_id := 2 }] }

namespace ClaimRace

/-- Program counter of one in-flight `claim_problem` call of `app.py`:
the initial claimant read, the conditional UPDATE, the verification
read, and termination. -/
inductive PC
  | check
  | write
  | verify
  | done
deriving DecidableEq

/-- One in-flight `claim_problem` call: its next statement, the
requesting user, the result it reported (none while still running), and
its transaction bookkeeping: whether its conditional UPDATE changed the
row, and the row state at the start of its transaction, restored if it
rolls back after having written. -/
structure Proc where
  pc : PC
  uid : Nat
  res : Option Res
  wrote : Bool
  savedClaim : Option Nat
  savedStat : String
deriving DecidableEq

/-- The shared problem row (claimant and status columns) together with
two concurrent claim calls. -/
structure Sys where
  claimant : Option Nat
  status : String
  p1 : Proc
  p2 : Proc
deriving DecidableEq

/-- One atomic statement of `claim_problem` of `app.py` against the
shared row: the check fails with AlreadyClaimed when the claimant is a
valid user; the write step rejects a zero user id (the invalid-user
error), performs the UPDATE guarded by
`claimed_by_user_id IS NULL OR claimed_by_user_id = 0` and records
whether it changed the row; the verification re-reads the row and
reports success exactly when it stores this caller's claim with status
In Progress, otherwise the transaction is rolled back (restoring the
row state saved at the write if this call had written) and the
claim-conflict error is reported. -/
def stepProc (cl : Option Nat) (st : String) (pr : Proc) :
    Option Nat × String × Proc :=
  match pr.pc with
  | .check =>
      if claimantSet cl then
        (cl, st, { pr with pc := .done, res := some .alreadyClaimed })
      else
        (cl, st, { pr with pc := .write })
  | .write =>
      if pr.uid = 0 then
        (cl, st, { pr with pc := .done, res := some .invalidUser })
      else if claimantFreeB cl then
        (some pr.uid, "In Progress",
          { pr with
            pc := .verify, wrote := true,
            savedClaim := cl, savedStat := st })
      else
        (cl, st, { pr with
          pc := .verify, wrote := false,
          savedClaim := cl, savedStat := st })
  | .verify =>
      if cl = some pr.uid ∧ st = "In Progress" then
        (cl, st, { pr with pc := .done, res := some .success })
      else if pr.wrote then
        (pr.savedClaim, pr.savedStat,
          { pr with pc := .done, res := some .claimConflict })
      else
        (cl, st, { pr with pc := .done, res := some .claimConflict })
  | .done => (cl, st, pr)

/-- Interleaving scheduler: at each step one of the two calls (true =
the first) executes its next atomic statement. -/
def stepSys (s : Sys) (who : Bool) : Sys :=
  if who then
    let r := stepProc s.claimant s.status s.p1
    { s with claimant := r.1, status := r.2.1, p1 := r.2.2 }
  else
    let r := stepProc s.claimant s.status s.p2
    { s with claimant := r.1, status := r.2.1, p2 := r.2.2 }

/-- Run a whole schedule. -/
def run (s : Sys) (sched : List Bool) : Sys :=
  sched.foldl stepSys s

/-- A claim call about to execute its first statement. -/
def initProc (u : Nat) : Proc :=
  { pc := .check, uid := u, res := none, wrote := false,
    savedClaim := none, savedStat := "" }

/-- Two concurrent claim calls by users `a` and `b` on an unclaimed
problem whose current status is `st0`. -/
def initSys (a b : Nat) (st0 : String) : Sys :=
  { claimant := none, status := st0, p1 := initProc a, p2 := initProc b }

/-- Exchange the two calls. -/
def swapSys (s : Sys) : Sys :=
  { claimant := s.claimant, status := s.status, p1 := s.p2, p2 := s.p1 }

/-- The race invariant for one call `me` against the other call: a call
that wrote holds the row (claimant and status) until it finishes; a call
at the check or write has neither written nor reported; a call at the
verification has not reported and someone has written; a finished call
has reported; success is reported only after writing; AlreadyClaimed and
ClaimConflict are reported only when the other call wrote and this one
did not; the invalid-user and not-found errors never occur for a valid
user on an existing row. -/
def procOk (cl : Option Nat) (st : String) (me other : Proc) : Prop :=
  me.uid ≠ 0 ∧
  (me.wrote = true →
    cl = some me.uid ∧ st = "In Progress" ∧
    (me.pc = PC.verify ∨ me.pc = PC.done)) ∧
  (me.pc = PC.check ∨ me.pc = PC.write →
    me.wrote = false ∧ me.res = none) ∧
  (me.pc = PC.verify →
    me.res = none ∧ (me.wrote = true ∨ other.wrote = true)) ∧
  (me.pc = PC.done → me.res ≠ none) ∧
  (me.res = some Res.success → me.wrote = true) ∧
  (me.res = some Res.alreadyClaimed →
    other.wrote = true ∧ me.wrote = false) ∧
  (me.res = some Res.claimConflict →
    other.wrote = true ∧ me.wrote = false) ∧
  me.res ≠ some Res.invalidUser ∧
  me.res ≠ some Res.notFound

/-- The full race invariant: the calls belong to users `a` and `b`, the
claimant is absent or held by the call that wrote it, and both calls
satisfy `procOk`. -/
def sysInv (a b : Nat) (s : Sys) : Prop :=
  s.p1.uid = a ∧ s.p2.uid = b ∧ a ≠ b ∧
  (s.claimant = none ∨
    (s.claimant = some a ∧ s.p1.wrote = true) ∨
    (s.claimant = some b ∧ s.p2.wrote = true)) ∧
  procOk s.claimant s.status s.p1 s.p2 ∧
  procOk s.claimant s.status s.p2 s.p1

end ClaimRace

end Tracker

namespace Tracker

theorem findProblem_eq_some {db : List Problem} {pid : Nat} {p : Problem}
    (h : findProblem db pid = some p) : p.id = pid ∧ p ∈ db := by
  have h1 := List.find?_some h
  have h2 := List.mem_of_find?_eq_some h
  exact ⟨by simpa using h1, h2⟩

theorem findProblem_updateWhere (db : List Problem) (pid : Nat)
    (cond : Problem → Bool) (f : Problem → Problem)
    (hf : ∀ p, (f p).id = p.id) :
    findProblem (updateWhere db cond f) pid
      = (findProblem db pid).map (fun p => if cond p then f p else p) := by
  induction db with
  | nil => rfl
  | cons q qs ih =>
    have hid : ((if cond q then f q else q).id == pid) = (q.id == pid) := by
      by_cases hc : cond q
      · simp [hc, hf q]
      · simp [hc]
    simp only [findProblem, updateWhere, List.map_cons, List.find?_cons, hid]
    cases hqp : (q.id == pid) with
    | true => simp
    | false =>
      simp only [Option.map]
      exact ih

theorem updateWhere_of_no_match (db : List Problem) (cond : Problem → Bool)
    (f : Problem → Problem) (h : ∀ p ∈ db, cond p = false) :
    updateWhere db cond f = db := by
  induction db with
  | nil => rfl
  | cons q qs ih =>
    have hq := h q (List.mem_cons_self q qs)
    simp only [updateWhere, List.map_cons, hq, Bool.false_eq_true, if_false]
    rw [show qs.map (fun p => if cond p then f p else p) = qs from
      ih (fun p hp => h p (List.mem_cons_of_mem q hp))]

theorem findProblem_update_row (db : List Problem) (pid : Nat)
    (f : Problem → Problem) (hf : ∀ p, (f p).id = p.id)
    (p : Problem) (hp : findProblem db pid = some p) :
    findProblem (updateWhere db (fun q => q.id == pid) f) pid = some (f p) := by
  rw [findProblem_updateWhere db pid _ f hf, hp]
  have hid := (findProblem_eq_some hp).1
  simp [Option.map, hid]

theorem claimantFreeB_of_not_set {c : Option Nat}
    (h : claimantSet c = false) : claimantFreeB c = true := by
  cases c with
  | none => rfl
  | some u => simpa [claimantSet, claimantFreeB] using h

/-- C1: when a problem is already claimed by a different valid (non-null,
non-zero) user, the claim entry point of `app.py` reports AlreadyClaimed
and returns the table unchanged, so claimant, status and completed_at of
every problem are untouched. -/
theorem C1_app_claim_alreadyClaimed (db : List Problem) (pid : Nat)
    (uid : Option Nat) (p : Problem) (c : Nat)
    (hp : findProblem db pid = some p) (hc : p.claimedBy = some c)
    (hc0 : c ≠ 0) (_hne : uid ≠ some c) :
    AppMain.claim_problem db pid uid = (db, Res.alreadyClaimed) := by
  have hcs : claimantSet p.claimedBy = true := by
    simp [claimantSet, hc, hc0]
  simp [AppMain.claim_problem, hp, hcs]

theorem C1_app_claim_alreadyClaimed_witness :
    findProblem [claimedP] 1 = some claimedP ∧
    claimedP.claimedBy = some 1 ∧ (1 : Nat) ≠ 0 ∧ some 2 ≠ some (1 : Nat) ∧
    AppMain.claim_problem [claimedP] 1 (some 2) = ([claimedP], Res.alreadyClaimed) :=
  ⟨by decide, by decide, by decide, by decide,
    C1_app_claim_alreadyClaimed [claimedP] 1 (some 2) claimedP 1
      (by decide) (by decide) (by decide) (by decide)⟩

/-- C1 fails for the claim function of `src/database/problems.py`: on a
problem claimed by user 1, a claim by user 2 overwrites the claimant and
reports success instead of failing with AlreadyClaimed. -/
theorem C1_counterexample_db_claim_overwrites :
    DbProblems.claim_problem [claimedP] 1 (some 2)
      = ([{ claimedP with claimedBy := some 2 }], Res.success) ∧
    ({ claimedP with claimedBy := some 2 } : Problem).claimedBy ≠ claimedP.claimedBy ∧
    Res.success ≠ Res.alreadyClaimed := by decide

/-- C2 fails: starting from a state satisfying the invariant, the
sequence claim, setStatus Completed, unclaim (all from `app.py`) keeps
the invariant at every step except the last: unclaim resets the status to
Open but leaves completed_at set. -/
theorem C2_counterexample_unclaim_breaks_inv :
    dbInv [p0] ∧
    dbInv (AppMain.claim_problem [p0] 1 (some 1)).1 ∧
    dbInv (AppMain.update_problem_status
      (AppMain.claim_problem [p0] 1 (some 1)).1 1 "Completed" 5).1 ∧
    ¬ dbInv (AppMain.unclaim_problem (AppMain.update_problem_status
      (AppMain.claim_problem [p0] 1 (some 1)).1 1 "Completed" 5).1 1).1 := by
  decide

/-- C2 amended: the status-update of `app.py` preserves the invariant
`status == Completed ⇔ completed_at is set` (claim of a Completed but
unclaimed problem and unclaim of a Completed problem break it). -/
theorem C2_amended_setStatus_preserves_inv (db : List Problem) (pid : Nat)
    (s : String) (now : Nat) (h : dbInv db) :
    dbInv (AppMain.update_problem_status db pid s now).1 := by
  intro p hp
  by_cases hs : s = "Completed"
  · simp only [AppMain.update_problem_status, if_pos hs, updateWhere,
      List.mem_map] at hp
    obtain ⟨q, hq, rfl⟩ := hp
    cases hc : (q.id == pid) with
    | true => simp [hc, statusTimestampInv, hs]
    | false =>
      simp only [hc, Bool.false_eq_true, if_false]
      exact h q hq
  · simp only [AppMain.update_problem_status, if_neg hs, updateWhere,
      List.mem_map] at hp
    obtain ⟨q, hq, rfl⟩ := hp
    cases hc : (q.id == pid) with
    | true => simp [hc, statusTimestampInv, hs]
    | false =>
      simp only [hc, Bool.false_eq_true, if_false]
      exact h q hq

theorem C2_amended_setStatus_preserves_inv_witness :
    dbInv [p0] ∧
    dbInv (AppMain.update_problem_status [p0] 1 "In Progress" 7).1 :=
  ⟨by decide, C2_amended_setStatus_preserves_inv [p0] 1 "In Progress" 7 (by decide)⟩

/-- C3 fails for the status-update of `src/database/problems.py`: moving
a Completed problem (timestamp 5) back to Open leaves completed_at at 5
instead of clearing it. -/
theorem C3_counterexample_db_keeps_timestamp :
    (DbProblems.update_problem_status [exP] 1 "Open" 9).1
      = [{ exP with status := "Open" }] ∧
    ({ exP with status := "Open" } : Problem).completedAt = some 5 ∧
    some 5 ≠ (none : Option Nat) := by decide

/-- C3 amended: for an existing item and a status in the enumeration,
both revisions write the new status; the `app.py` revision sets
completed_at to the current time on Completed and clears it otherwise,
while the `src/database/problems.py` revision sets it on Completed and
leaves the stored value unchanged otherwise (it never clears it). -/
theorem C3_amended_setStatus (db : List Problem) (pid : Nat) (s : String)
    (now : Nat) (p : Problem)
    (hp : findProblem db pid = some p)
    (_hs : s = "Open" ∨ s = "In Progress" ∨ s = "Completed") :
    (findProblem (AppMain.update_problem_status db pid s now).1 pid).map
        Problem.status = some s ∧
    (findProblem (AppMain.update_problem_status db pid s now).1 pid).map
        Problem.completedAt
      = some (if s = "Completed" then some now else none) ∧
    (findProblem (DbProblems.update_problem_status db pid s now).1 pid).map
        Problem.status = some s ∧
    (findProblem (DbProblems.update_problem_status db pid s now).1 pid).map
        Problem.completedAt
      = some (if s = "Completed" then some now else p.completedAt) := by
  have happ : findProblem (AppMain.update_problem_status db pid s now).1 pid
      = some (if s = "Completed"
          then { p with status := s, completedAt := some now }
          else { p with status := s, completedAt := none }) := by
    unfold AppMain.update_problem_status
    by_cases hc : s = "Completed"
    · rw [if_pos hc, if_pos hc]
      exact findProblem_update_row db pid
        (fun q => { q with status := s, completedAt := some now })
        (fun q => rfl) p hp
    · rw [if_neg hc, if_neg hc]
      exact findProblem_update_row db pid
        (fun q => { q with status := s, completedAt := none })
        (fun q => rfl) p hp
  have hdb : findProblem (DbProblems.update_problem_status db pid s now).1 pid
      = some { p with
          status := s,
          completedAt := if s = "Completed" then some now else p.completedAt } := by
    unfold DbProblems.update_problem_status
    exact findProblem_update_row db pid
      (fun q => { q with
        status := s,
        completedAt := if s = "Completed" then some now else q.completedAt })
      (fun q => rfl) p hp
  refine ⟨?_, ?_, ?_, ?_⟩
  · rw [happ]; by_cases hc : s = "Completed" <;> simp [hc]
  · rw [happ]; by_cases hc : s = "Completed" <;> simp [hc]
  · rw [hdb]; simp
  · rw [hdb]; simp

theorem C3_amended_setStatus_witness :
    findProblem [exP] 1 = some exP ∧
    ("Open" = "Open" ∨ "Open" = "In Progress" ∨ "Open" = "Completed") ∧
    ((findProblem (AppMain.update_problem_status [exP] 1 "Open" 9).1 1).map
        Problem.status = some "Open" ∧
     (findProblem (AppMain.update_problem_status [exP] 1 "Open" 9).1 1).map
        Problem.completedAt
       = some (if "Open" = "Completed" then some 9 else none) ∧
     (findProblem (DbProblems.update_problem_status [exP] 1 "Open" 9).1 1).map
        Problem.status = some "Open" ∧
     (findProblem (DbProblems.update_problem_status [exP] 1 "Open" 9).1 1).map
        Problem.completedAt
       = some (if "Open" = "Completed" then some 9 else exP.completedAt)) :=
  ⟨by decide, by decide,
    C3_amended_setStatus [exP] 1 "Open" 9 exP (by decide) (by decide)⟩

/-- C5 fails for the claim function of `src/database/problems.py`: a
claim with the zero sentinel user stores the sentinel as claimant, moves
the status to In Progress and reports success instead of failing with
InvalidUser and leaving the problem unchanged. -/
theorem C5_counterexample_db_claims_sentinel :
    DbProblems.claim_problem [p0] 1 (some 0)
      = ([{ p0 with claimedBy := some 0, status := "In Progress" }],
          Res.success) ∧
    ({ p0 with claimedBy := some 0, status := "In Progress" } : Problem) ≠ p0 ∧
    Res.success ≠ Res.invalidUser := by decide

/-- C5 amended: for the claim entry point of `app.py`, a claim with a
null or zero user id on an existing problem leaves the table unchanged
and fails: with InvalidUser when the stored claimant is absent or the
zero sentinel, and with AlreadyClaimed when a different valid claimant is
already set (that check runs first). -/
theorem C5_amended_app_claim_rejects_sentinel (db : List Problem)
    (pid : Nat) (uid : Option Nat) (p : Problem)
    (hp : findProblem db pid = some p)
    (hu : uid = none ∨ uid = some 0) :
    AppMain.claim_problem db pid uid
      = (db, if claimantSet p.claimedBy then Res.alreadyClaimed
             else Res.invalidUser) := by
  simp only [AppMain.claim_problem, hp]
  cases hcs : claimantSet p.claimedBy with
  | true => simp [hcs]
  | false => simp [hcs, if_pos hu]

theorem C5_amended_app_claim_rejects_sentinel_witness :
    findProblem [p0] 1 = some p0 ∧
    (some 0 = (none : Option Nat) ∨ some 0 = some 0) ∧
    AppMain.claim_problem [p0] 1 (some 0)
      = ([p0], if claimantSet p0.claimedBy then Res.alreadyClaimed
               else Res.invalidUser) :=
  ⟨by decide, by decide,
    C5_amended_app_claim_rejects_sentinel [p0] 1 (some 0) p0
      (by decide) (by decide)⟩

/-- C6: when a claim succeeds (in either revision), the stored claimant
is the requested user, the status is In Progress, and completed_at is
exactly what it was before the call. -/
theorem C6_claim_success_postconditions (db : List Problem) (pid u : Nat)
    (p : Problem) (hp : findProblem db pid = some p) (hu : u ≠ 0) :
    ((AppMain.claim_problem db pid (some u)).2 = Res.success →
      (findProblem (AppMain.claim_problem db pid (some u)).1 pid).map
          Problem.claimedBy = some (some u) ∧
      (findProblem (AppMain.claim_problem db pid (some u)).1 pid).map
          Problem.status = some "In Progress" ∧
      (findProblem (AppMain.claim_problem db pid (some u)).1 pid).map
          Problem.completedAt = some p.completedAt) ∧
    ((DbProblems.claim_problem db pid (some u)).2 = Res.success →
      (findProblem (DbProblems.claim_problem db pid (some u)).1 pid).map
          Problem.claimedBy = some (some u) ∧
      (findProblem (DbProblems.claim_problem db pid (some u)).1 pid).map
          Problem.status = some "In Progress" ∧
      (findProblem (DbProblems.claim_problem db pid (some u)).1 pid).map
          Problem.completedAt = some p.completedAt) := by
  constructor
  · cases hcs : claimantSet p.claimedBy with
    | true =>
      intro hsucc
      simp [AppMain.claim_problem, hp, hcs] at hsucc
    | false =>
      intro hsucc
      have hfree := claimantFreeB_of_not_set hcs
      have hid := (findProblem_eq_some hp).1
      have hvalid : ¬ (some u = (none : Option Nat) ∨ some u = some 0) := by
        simp [hu]
      have hrow : findProblem (updateWhere db
          (fun q => q.id == pid && claimantFreeB q.claimedBy)
          (fun q => { q with claimedBy := some u, status := "In Progress" }))
          pid
          = some { p with claimedBy := some u, status := "In Progress" } := by
        rw [findProblem_updateWhere db pid
          (fun q => q.id == pid && claimantFreeB q.claimedBy)
          (fun q => { q with claimedBy := some u, status := "In Progress" })
          (fun q => rfl), hp]
        simp [Option.map, hid, hfree]
      have happ : AppMain.claim_problem db pid (some u)
          = (updateWhere db
              (fun q => q.id == pid && claimantFreeB q.claimedBy)
              (fun q => { q with claimedBy := some u, status := "In Progress" }),
             Res.success) := by
        simp only [AppMain.claim_problem, hp, hcs, Bool.false_eq_true,
          if_false]
        rw [if_neg hvalid]
        simp [hrow]
      rw [happ]
      simp [hrow]
  · intro hsucc
    have hrow := findProblem_update_row db pid
      (fun q => { q with claimedBy := some u, status := "In Progress" })
      (fun q => rfl) p hp
    simp [DbProblems.claim_problem, hrow]

theorem C6_claim_success_postconditions_witness :
    findProblem [p0] 1 = some p0 ∧ (2 : Nat) ≠ 0 ∧
    (((AppMain.claim_problem [p0] 1 (some 2)).2 = Res.success →
      (findProblem (AppMain.claim_problem [p0] 1 (some 2)).1 1).map
          Problem.claimedBy = some (some 2) ∧
      (findProblem (AppMain.claim_problem [p0] 1 (some 2)).1 1).map
          Problem.status = some "In Progress" ∧
      (findProblem (AppMain.claim_problem [p0] 1 (some 2)).1 1).map
          Problem.completedAt = some p0.completedAt) ∧
    ((DbProblems.claim_problem [p0] 1 (some 2)).2 = Res.success →
      (findProblem (DbProblems.claim_problem [p0] 1 (some 2)).1 1).map
          Problem.claimedBy = some (some 2) ∧
      (findProblem (DbProblems.claim_problem [p0] 1 (some 2)).1 1).map
          Problem.status = some "In Progress" ∧
      (findProblem (DbProblems.claim_problem [p0] 1 (some 2)).1 1).map
          Problem.completedAt = some p0.completedAt)) :=
  ⟨by decide, by decide,
    C6_claim_success_postconditions [p0] 1 2 p0 (by decide) (by decide)⟩

/-- C9 fails: a status update for an id with no matching problem changes
nothing and still reports success; no NotFound error is surfaced by
either revision. -/
theorem C9_counterexample_missing_id_reports_success :
    AppMain.update_problem_status [exP] 2 "Open" 9 = ([exP], Res.success) ∧
    DbProblems.update_problem_status [exP] 2 "Open" 9 = ([exP], Res.success) ∧
    Res.success ≠ Res.notFound := by decide

/-- C9 amended: for an id that refers to no problem, the status update of
both revisions is a no-op on the table and reports success (the UPDATE
matches zero rows and no existence check is made). -/
theorem C9_amended_setStatus_missing_id (db : List Problem) (pid : Nat)
    (s : String) (now : Nat) (h : findProblem db pid = none) :
    AppMain.update_problem_status db pid s now = (db, Res.success) ∧
    DbProblems.update_problem_status db pid s now = (db, Res.success) := by
  have hall : ∀ p ∈ db, ((fun q => q.id == pid) p) = false := by
    intro p hpmem
    have hnone := List.find?_eq_none.mp h p hpmem
    simpa using hnone
  constructor
  · unfold AppMain.update_problem_status
    by_cases hs : s = "Completed" <;>
      simp [hs, updateWhere_of_no_match db _ _ hall]
  · unfold DbProblems.update_problem_status
    simp [updateWhere_of_no_match db _ _ hall]

theorem C9_amended_setStatus_missing_id_witness :
    findProblem [exP] 2 = none ∧
    (AppMain.update_problem_status [exP] 2 "Open" 9 = ([exP], Res.success) ∧
     DbProblems.update_problem_status [exP] 2 "Open" 9 = ([exP], Res.success)) :=
  ⟨by decide, C9_amended_setStatus_missing_id [exP] 2 "Open" 9 (by decide)⟩

/-- C10: complete_problem on an existing problem sets the status to
Completed, stamps completed_at with the current time, and rewrites the
description: a null or empty description becomes the reference, a
non-empty one gets the reference appended (after a blank line and the
text "Reference: "). -/
theorem C10_complete_problem (db : List Problem) (pid : Nat)
    (reference : String) (now : Nat) (p : Problem)
    (hp : findProblem db pid = some p) :
    (findProblem (DbProblems.complete_problem db pid reference now) pid).map
        Problem.status = some "Completed" ∧
    (findProblem (DbProblems.complete_problem db pid reference now) pid).map
        Problem.completedAt = some (some now) ∧
    (findProblem (DbProblems.complete_problem db pid reference now) pid).map
        Problem.description
      = some (some (match p.description with
          | none => reference
          | some d => if d = "" then reference
                      else d ++ "\n\nReference: " ++ reference)) := by
  have hrow := findProblem_update_row db pid
    (fun q => { q with
      status := "Completed",
      completedAt := some now,
      description := some (match q.description with
        | none => reference
        | some d => if d = "" then reference
                    else d ++ "\n\nReference: " ++ reference) })
    (fun q => rfl) p hp
  unfold DbProblems.complete_problem
  rw [hrow]
  exact ⟨rfl, rfl, rfl⟩

theorem C10_complete_problem_witness :
    findProblem [p0] 1 = some p0 ∧
    ((findProblem (DbProblems.complete_problem [p0] 1 "merged PR 7" 9) 1).map
        Problem.status = some "Completed" ∧
     (findProblem (DbProblems.complete_problem [p0] 1 "merged PR 7" 9) 1).map
        Problem.completedAt = some (some 9) ∧
     (findProblem (DbProblems.complete_problem [p0] 1 "merged PR 7" 9) 1).map
        Problem.description
       = some (some (match p0.description with
           | none => "merged PR 7"
           | some d => if d = "" then "merged PR 7"
                       else d ++ "\n\nReference: " ++ "merged PR 7"))) :=
  ⟨by decide, C10_complete_problem [p0] 1 "merged PR 7" 9 p0 (by decide)⟩

theorem list_sum_bind (l : List α) (f : α → List Int) :
    (l.flatMap f).sum = (l.map (fun a => (f a).sum)).sum := by
  induction l with
  | nil => rfl
  | cons a as ih => simp [List.flatMap_cons, List.sum_append, ih]

theorem filter_points_eq_find (cats : List Category) (cid : Nat)
    (h : (cats.map Category.id).Nodup) :
    ((cats.filter (fun c => c.id == cid)).map (fun c => c.points)).sum
      = (match cats.find? (fun c => c.id == cid) with
         | some c => c.points
         | none => 0) := by
  induction cats with
  | nil => rfl
  | cons c cs ih =>
    simp only [List.map_cons, List.nodup_cons] at h
    obtain ⟨hnotmem, hnd⟩ := h
    by_cases hc : (c.id == cid) = true
    · have hid : c.id = cid := by simpa using hc
      have hrest : cs.filter (fun x => x.id == cid) = [] := by
        rw [List.filter_eq_nil_iff]
        intro x hx hxcid
        have hxid : x.id = cid := by simpa using hxcid
        exact hnotmem (hid ▸ hxid ▸ List.mem_map_of_mem Category.id hx)
      simp [List.filter_cons, hc, List.find?_cons, hrest]
    · simp [List.filter_cons, hc, List.find?_cons, ih hnd]

/-- C7: for any database whose category ids are unique (the id column is
the primary key), the user-points query equals the spec's nested sum —
over the user's Completed claimed problems, of the sum of their
categories' point weights — and a Completed problem with no associated
categories contributes 0 (the empty sum), not an error. -/
theorem C7_totalPoints (db : DB) (uid : Nat)
    (h : (db.categories.map Category.id).Nodup) :
    get_user_points db uid = totalPointsSpec db uid ∧
    (∀ p : Problem,
      db.problem_categories.filter (fun pc => pc.problem_id == p.id) = [] →
      problemPointsSpec db p = 0) := by
  constructor
  · unfold get_user_points totalPointsSpec
    rw [list_sum_bind]
    apply congrArg List.sum
    apply List.map_congr_left
    intro p _
    unfold problemPointsSpec
    rw [list_sum_bind]
    apply congrArg List.sum
    apply List.map_congr_left
    intro pc _
    rw [filter_points_eq_find db.categories pc.category_id h]
    rfl
  · intro p hfilter
    unfold problemPointsSpec
    rw [hfilter]
    rfl

theorem C7_totalPoints_witness :
    (scoreDB.categories.map Category.id).Nodup ∧
    (get_user_points scoreDB 1 = totalPointsSpec scoreDB 1 ∧
     (∀ p : Problem,
       scoreDB.problem_categories.filter (fun pc => pc.problem_id == p.id) = [] →
       problemPointsSpec scoreDB p = 0)) ∧
    get_user_points scoreDB 1 = 8 :=
  ⟨by decide, C7_totalPoints scoreDB 1 (by decide), by decide⟩

/-- C8 fails on ties: the leaderboard query orders only by points
descending, so two users with equal totals come out in users-table
order, not username-ascending order — here "bob" (earlier row) precedes
the lexicographically smaller "alice". -/
theorem C8_counterexample_tie_not_username_sorted :
    get_leaderboard tieDB = [("bob", 0), ("alice", 0)] ∧
    "alice".data < "bob".data := by
  constructor
  · decide
  · decide

theorem mem_insertPointsDesc {z x : String × Int} {l : List (String × Int)}
    (h : z ∈ insertPointsDesc x l) : z = x ∨ z ∈ l := by
  induction l with
  | nil => simpa [insertPointsDesc] using h
  | cons y ys ih =>
    rw [insertPointsDesc] at h
    by_cases hc : y.2 ≤ x.2
    · rw [if_pos hc] at h
      rcases List.mem_cons.mp h with rfl | h2
      · exact Or.inl rfl
      · exact Or.inr h2
    · rw [if_neg hc] at h
      rcases List.mem_cons.mp h with rfl | h2
      · exact Or.inr (List.mem_cons_self _ _)
      · rcases ih h2 with rfl | h3
        · exact Or.inl rfl
        · exact Or.inr (List.mem_cons_of_mem _ h3)

theorem insertPointsDesc_pairwise (x : String × Int)
    (l : List (String × Int))
    (h : List.Pairwise (fun a b => b.2 ≤ a.2) l) :
    List.Pairwise (fun a b => b.2 ≤ a.2) (insertPointsDesc x l) := by
  induction l with
  | nil => simp [insertPointsDesc]
  | cons y ys ih =>
    rw [List.pairwise_cons] at h
    obtain ⟨hy, hys⟩ := h
    by_cases hc : y.2 ≤ x.2
    · rw [insertPointsDesc, if_pos hc]
      refine List.pairwise_cons.mpr ⟨?_, List.pairwise_cons.mpr ⟨hy, hys⟩⟩
      intro z hz
      rcases List.mem_cons.mp hz with rfl | hz2
      · exact hc
      · exact le_trans (hy z hz2) hc
    · rw [insertPointsDesc, if_neg hc]
      refine List.pairwise_cons.mpr ⟨?_, ih hys⟩
      intro z hz
      rcases mem_insertPointsDesc hz with rfl | hz2
      · exact le_of_not_le hc
      · exact hy z hz2

theorem sortPointsDesc_pairwise (l : List (String × Int)) :
    List.Pairwise (fun a b => b.2 ≤ a.2) (sortPointsDesc l) := by
  induction l with
  | nil => simp [sortPointsDesc]
  | cons x xs ih => exact insertPointsDesc_pairwise x (sortPointsDesc xs) ih

/-- C8 amended: the leaderboard is sorted by points descending (every
later row has at most the points of every earlier row) and the rank
column of the displayed table is the sequential integers 1..N with no
gaps; the order of rows with equal points is the table order of the
grouped rows, since the query has no username tie-break. -/
theorem C8_amended_leaderboard (db : DB) :
    List.Pairwise (fun a b => b.2 ≤ a.2) (get_leaderboard db) ∧
    (display_leaderboard db).map (fun r => r.1)
      = List.range' 1 (get_leaderboard db).length := by
  constructor
  · exact sortPointsDesc_pairwise _
  · unfold display_leaderboard
    rw [List.map_map]
    rw [show ((fun r : Nat × String × Int => r.1) ∘
        (fun e : Nat × (String × Int) => (e.1 + 1, e.2)))
        = ((fun n => n + 1) ∘ Prod.fst) from rfl]
    rw [← List.map_map, List.enum_map_fst, List.range'_eq_map_range]
    simp [Nat.add_comm]

end Tracker


namespace Tracker.ClaimRace

theorem sysInv_swap (a b : Nat) (s : Sys) (h : sysInv a b s) :
    sysInv b a (swapSys s) := by
  obtain ⟨hu1, hu2, hab, hcl, hp1, hp2⟩ := h
  refine ⟨hu2, hu1, fun hba => hab hba.symm, ?_, hp2, hp1⟩
  rcases hcl with hx | hx | hx
  · exact Or.inl hx
  · exact Or.inr (Or.inr hx)
  · exact Or.inr (Or.inl hx)

theorem stepSys_swap (s : Sys) :
    stepSys s false = swapSys (stepSys (swapSys s) true) := rfl

theorem sysInv_step_one (a b : Nat) (s : Sys) (h : sysInv a b s) :
    sysInv a b (stepSys s true) := by
  obtain ⟨hu1, hu2, hab, hcl, hp1, hp2⟩ := h
  obtain ⟨h1u, h1w, h1cw, h1v, h1d, h1s, h1a, h1c, h1i, h1n⟩ := hp1
  obtain ⟨h2u, h2w, h2cw, h2v, h2d, h2s, h2a, h2c, h2i, h2n⟩ := hp2
  cases hpc : s.p1.pc with
  | done =>
    have hstep : stepSys s true = s := by
      simp [stepSys, stepProc, hpc]
    rw [hstep]
    exact ⟨hu1, hu2, hab, hcl,
      ⟨h1u, h1w, h1cw, h1v, h1d, h1s, h1a, h1c, h1i, h1n⟩,
      ⟨h2u, h2w, h2cw, h2v, h2d, h2s, h2a, h2c, h2i, h2n⟩⟩
  | check =>
    have hwr : s.p1.wrote = false := (h1cw (Or.inl hpc)).1
    have hres : s.p1.res = none := (h1cw (Or.inl hpc)).2
    cases hcs : claimantSet s.claimant with
    | true =>
      have hwon : s.claimant = some b ∧ s.p2.wrote = true := by
        rcases hcl with hx | hx | hx
        · rw [hx] at hcs
          simp [claimantSet] at hcs
        · exact absurd hx.2 (by simp [hwr])
        · exact hx
      have hstep : stepSys s true
          = { s with p1 := { s.p1 with
              pc := PC.done, res := some Res.alreadyClaimed } } := by
        simp [stepSys, stepProc, hpc, hcs]
      rw [hstep]
      exact ⟨hu1, hu2, hab, hcl,
        ⟨h1u,
         fun hw => ⟨(h1w hw).1, (h1w hw).2.1, Or.inr rfl⟩,
         fun hor => by rcases hor with hx | hx <;> exact PC.noConfusion hx,
         fun hx => PC.noConfusion hx,
         fun _ hx => Option.noConfusion hx,
         fun hx => Res.noConfusion (Option.some.inj hx),
         fun _ => ⟨hwon.2, hwr⟩,
         fun hx => Res.noConfusion (Option.some.inj hx),
         fun hx => Res.noConfusion (Option.some.inj hx),
         fun hx => Res.noConfusion (Option.some.inj hx)⟩,
        ⟨h2u, h2w, h2cw, h2v, h2d, h2s, h2a, h2c, h2i, h2n⟩⟩
    | false =>
      have hstep : stepSys s true
          = { s with p1 := { s.p1 with pc := PC.write } } := by
        simp [stepSys, stepProc, hpc, hcs]
      rw [hstep]
      exact ⟨hu1, hu2, hab, hcl,
        ⟨h1u,
         fun hw => absurd hw (by simp [hwr]),
         fun _ => ⟨hwr, hres⟩,
         fun hx => PC.noConfusion hx,
         fun hx => PC.noConfusion hx,
         fun hx => by simp [hres] at hx,
         fun hx => by simp [hres] at hx,
         fun hx => by simp [hres] at hx,
         fun hx => by simp [hres] at hx,
         fun hx => by simp [hres] at hx⟩,
        ⟨h2u, h2w, h2cw, h2v, h2d, h2s, h2a, h2c, h2i, h2n⟩⟩
  | write =>
    have hwr : s.p1.wrote = false := (h1cw (Or.inr hpc)).1
    have hres : s.p1.res = none := (h1cw (Or.inr hpc)).2
    cases hfree : claimantFreeB s.claimant with
    | true =>
      have hp2w : s.p2.wrote = false := by
        cases hw2 : s.p2.wrote with
        | false => rfl
        | true =>
          have hx := (h2w hw2).1
          rw [hx] at hfree
          simp [claimantFreeB] at hfree
          exact absurd hfree h2u
      have hstep : stepSys s true
          = { s with
              claimant := some s.p1.uid, status := "In Progress",
              p1 := { s.p1 with
                pc := PC.verify, wrote := true,
                savedClaim := s.claimant, savedStat := s.status } } := by
        simp [stepSys, stepProc, hpc, h1u, hfree]
      rw [hstep]
      refine ⟨hu1, hu2, hab, Or.inr (Or.inl ⟨by rw [hu1], rfl⟩),
        ⟨h1u,
         fun _ => ⟨rfl, rfl, Or.inl rfl⟩,
         fun hor => by rcases hor with hx | hx <;> exact PC.noConfusion hx,
         fun _ => ⟨hres, Or.inl rfl⟩,
         fun hx => PC.noConfusion hx,
         fun _ => rfl,
         fun hx => by simp [hres] at hx,
         fun hx => by simp [hres] at hx,
         fun hx => by simp [hres] at hx,
         fun hx => by simp [hres] at hx⟩,
        ⟨h2u,
         fun hw => absurd hw (by simp [hp2w]),
         h2cw,
         fun hx => ⟨(h2v hx).1, Or.inr rfl⟩,
         h2d,
         h2s,
         fun hx => ⟨rfl, (h2a hx).2⟩,
         fun hx => ⟨rfl, (h2c hx).2⟩,
         h2i, h2n⟩⟩
    | false =>
      have hone : s.claimant = some b ∧ s.p2.wrote = true := by
        rcases hcl with hx | hx | hx
        · rw [hx] at hfree
          simp [claimantFreeB] at hfree
        · exact absurd hx.2 (by simp [hwr])
        · exact hx
      have hstep : stepSys s true
          = { s with p1 := { s.p1 with
              pc := PC.verify, wrote := false,
              savedClaim := s.claimant, savedStat := s.status } } := by
        simp [stepSys, stepProc, hpc, h1u, hfree]
      rw [hstep]
      refine ⟨hu1, hu2, hab, Or.inr (Or.inr ⟨hone.1, hone.2⟩),
        ⟨h1u,
         fun hw => absurd hw (by simp),
         fun hor => by rcases hor with hx | hx <;> exact PC.noConfusion hx,
         fun _ => ⟨hres, Or.inr hone.2⟩,
         fun hx => PC.noConfusion hx,
         fun hx => by simp [hres] at hx,
         fun hx => by simp [hres] at hx,
         fun hx => by simp [hres] at hx,
         fun hx => by simp [hres] at hx,
         fun hx => by simp [hres] at hx⟩,
        ⟨h2u, h2w, h2cw,
         fun hx => ⟨(h2v hx).1, by
           rcases (h2v hx).2 with hh | hh
           · exact Or.inl hh
           · exact absurd hh (by simp [hwr])⟩,
         h2d, h2s,
         fun hx => absurd (h2a hx).1 (by simp [hwr]),
         fun hx => absurd (h2c hx).1 (by simp [hwr]),
         h2i, h2n⟩⟩
  | verify =>
    have hres : s.p1.res = none := (h1v hpc).1
    have hdisj := (h1v hpc).2
    by_cases hcond : s.claimant = some s.p1.uid ∧ s.status = "In Progress"
    · have hw1 : s.p1.wrote = true := by
        rcases hcl with hx | hx | hx
        · rw [hx] at hcond
          exact Option.noConfusion hcond.1
        · exact hx.2
        · rw [hx.1] at hcond
          have hba : b = s.p1.uid := Option.some.inj hcond.1
          rw [hu1] at hba
          exact absurd hba.symm hab
      have hstep : stepSys s true
          = { s with p1 := { s.p1 with
              pc := PC.done, res := some Res.success } } := by
        simp [stepSys, stepProc, hpc, hcond]
      rw [hstep]
      exact ⟨hu1, hu2, hab, hcl,
        ⟨h1u,
         fun _ => ⟨hcond.1, hcond.2, Or.inr rfl⟩,
         fun hor => by rcases hor with hx | hx <;> exact PC.noConfusion hx,
         fun hx => PC.noConfusion hx,
         fun _ hx => Option.noConfusion hx,
         fun _ => hw1,
         fun hx => Res.noConfusion (Option.some.inj hx),
         fun hx => Res.noConfusion (Option.some.inj hx),
         fun hx => Res.noConfusion (Option.some.inj hx),
         fun hx => Res.noConfusion (Option.some.inj hx)⟩,
        ⟨h2u, h2w, h2cw, h2v, h2d, h2s, h2a, h2c, h2i, h2n⟩⟩
    · cases hw1 : s.p1.wrote with
      | true => exact absurd ⟨(h1w hw1).1, (h1w hw1).2.1⟩ hcond
      | false =>
        have hp2w : s.p2.wrote = true := by
          rcases hdisj with hh | hh
          · exact absurd hh (by simp [hw1])
          · exact hh
        have hstep : stepSys s true
            = { s with p1 := { s.p1 with
                pc := PC.done, res := some Res.claimConflict } } := by
          simp [stepSys, stepProc, hpc, hcond, hw1]
        rw [hstep]
        exact ⟨hu1, hu2, hab, hcl,
          ⟨h1u,
           fun hw => absurd hw (by simp [hw1]),
           fun hor => by rcases hor with hx | hx <;> exact PC.noConfusion hx,
           fun hx => PC.noConfusion hx,
           fun _ hx => Option.noConfusion hx,
           fun hx => Res.noConfusion (Option.some.inj hx),
           fun hx => Res.noConfusion (Option.some.inj hx),
           fun _ => ⟨hp2w, hw1⟩,
           fun hx => Res.noConfusion (Option.some.inj hx),
           fun hx => Res.noConfusion (Option.some.inj hx)⟩,
          ⟨h2u, h2w, h2cw, h2v, h2d, h2s, h2a, h2c, h2i, h2n⟩⟩

theorem sysInv_step (a b : Nat) (s : Sys) (w : Bool) (h : sysInv a b s) :
    sysInv a b (stepSys s w) := by
  cases w with
  | true => exact sysInv_step_one a b s h
  | false =>
    rw [stepSys_swap]
    exact sysInv_swap b a _ (sysInv_step_one b a (swapSys s) (sysInv_swap a b s h))

theorem sysInv_run (a b : Nat) (s : Sys) (sched : List Bool)
    (h : sysInv a b s) : sysInv a b (run s sched) := by
  induction sched generalizing s with
  | nil => exact h
  | cons w rest ih => exact ih (stepSys s w) (sysInv_step a b s w h)

theorem sysInv_init (a b : Nat) (st0 : String) (ha : a ≠ 0) (hb : b ≠ 0)
    (hab : a ≠ b) : sysInv a b (initSys a b st0) := by
  simp [sysInv, procOk, initSys, initProc, ha, hb, hab]

/-- C4 amended: for the claim logic of `app.py` — the atomic steps being
the claimant check, the conditional UPDATE and the verification read —
every interleaving of two claim calls by different valid users on an
unclaimed problem in which both calls finish ends with exactly one call
reporting success, the other reporting AlreadyClaimed or ClaimConflict,
and the stored claimant being the user whose call succeeded.  (The
`claim_problem` of `src/database/problems.py` does not have this
property: both calls report success.) -/
theorem C4_amended_mutual_exclusion (a b : Nat) (st0 : String)
    (ha : a ≠ 0) (hb : b ≠ 0) (hab : a ≠ b) (sched : List Bool)
    (h1 : (run (initSys a b st0) sched).p1.pc = PC.done)
    (h2 : (run (initSys a b st0) sched).p2.pc = PC.done) :
    ((run (initSys a b st0) sched).p1.res = some Res.success ∧
     (run (initSys a b st0) sched).claimant = some a ∧
     ((run (initSys a b st0) sched).p2.res = some Res.alreadyClaimed ∨
      (run (initSys a b st0) sched).p2.res = some Res.claimConflict)) ∨
    ((run (initSys a b st0) sched).p2.res = some Res.success ∧
     (run (initSys a b st0) sched).claimant = some b ∧
     ((run (initSys a b st0) sched).p1.res = some Res.alreadyClaimed ∨
      (run (initSys a b st0) sched).p1.res = some Res.claimConflict)) := by
  obtain ⟨hu1, hu2, hab2, hcl, hp1, hp2⟩ :=
    sysInv_run a b (initSys a b st0) sched (sysInv_init a b st0 ha hb hab)
  obtain ⟨h1u, h1w, h1cw, h1v, h1d, h1s, h1a, h1c, h1i, h1n⟩ := hp1
  obtain ⟨h2u, h2w, h2cw, h2v, h2d, h2s, h2a, h2c, h2i, h2n⟩ := hp2
  cases hr1 : (run (initSys a b st0) sched).p1.res with
  | none => exact absurd hr1 (h1d h1)
  | some r1 =>
    cases hr2 : (run (initSys a b st0) sched).p2.res with
    | none => exact absurd hr2 (h2d h2)
    | some r2 =>
      cases r1 with
      | invalidUser => exact absurd hr1 h1i
      | notFound => exact absurd hr1 h1n
      | success =>
        have hw1 := h1s hr1
        have hclaim := (h1w hw1).1
        rw [hu1] at hclaim
        cases r2 with
        | invalidUser => exact absurd hr2 h2i
        | notFound => exact absurd hr2 h2n
        | success =>
          have hw2 := h2s hr2
          have hclaim2 := (h2w hw2).1
          rw [hu2, hclaim] at hclaim2
          exact absurd (Option.some.inj hclaim2) hab2
        | alreadyClaimed => exact Or.inl ⟨rfl, hclaim, Or.inl rfl⟩
        | claimConflict => exact Or.inl ⟨rfl, hclaim, Or.inr rfl⟩
      | alreadyClaimed =>
        have hw2 := (h1a hr1).1
        have hnw1 := (h1a hr1).2
        cases r2 with
        | invalidUser => exact absurd hr2 h2i
        | notFound => exact absurd hr2 h2n
        | alreadyClaimed => exact absurd (h2a hr2).1 (by simp [hnw1])
        | claimConflict => exact absurd (h2c hr2).1 (by simp [hnw1])
        | success =>
          have hclaim := (h2w hw2).1
          rw [hu2] at hclaim
          exact Or.inr ⟨rfl, hclaim, Or.inl rfl⟩
      | claimConflict =>
        have hw2 := (h1c hr1).1
        have hnw1 := (h1c hr1).2
        cases r2 with
        | invalidUser => exact absurd hr2 h2i
        | notFound => exact absurd hr2 h2n
        | alreadyClaimed => exact absurd (h2a hr2).1 (by simp [hnw1])
        | claimConflict => exact absurd (h2c hr2).1 (by simp [hnw1])
        | success =>
          have hclaim := (h2w hw2).1
          rw [hu2] at hclaim
          exact Or.inr ⟨rfl, hclaim, Or.inr rfl⟩

end Tracker.ClaimRace

namespace Tracker.ClaimRace

theorem C4_amended_mutual_exclusion_witness :
    (1 : Nat) ≠ 0 ∧ (2 : Nat) ≠ 0 ∧ (1 : Nat) ≠ 2 ∧
    (run (initSys 1 2 "Open")
      [true, true, true, false, false, false]).p1.pc = PC.done ∧
    (run (initSys 1 2 "Open")
      [true, true, true, false, false, false]).p2.pc = PC.done ∧
    (((run (initSys 1 2 "Open")
        [true, true, true, false, false, false]).p1.res = some Res.success ∧
      (run (initSys 1 2 "Open")
        [true, true, true, false, false, false]).claimant = some 1 ∧
      ((run (initSys 1 2 "Open")
         [true, true, true, false, false, false]).p2.res
           = some Res.alreadyClaimed ∨
       (run (initSys 1 2 "Open")
         [true, true, true, false, false, false]).p2.res
           = some Res.claimConflict)) ∨
     ((run (initSys 1 2 "Open")
        [true, true, true, false, false, false]).p2.res = some Res.success ∧
      (run (initSys 1 2 "Open")
        [true, true, true, false, false, false]).claimant = some 2 ∧
      ((run (initSys 1 2 "Open")
         [true, true, true, false, false, false]).p1.res
           = some Res.alreadyClaimed ∨
       (run (initSys 1 2 "Open")
         [true, true, true, false, false, false]).p1.res
           = some Res.claimConflict))) :=
  ⟨by decide, by decide, by decide, by decide, by decide,
    C4_amended_mutual_exclusion 1 2 "Open" (by decide) (by decide)
      (by decide) [true, true, true, false, false, false]
      (by decide) (by decide)⟩

end Tracker.ClaimRace

namespace Tracker

/-- C4 fails for the claim function of `src/database/problems.py`: each
claim call is one unconditional UPDATE, so in the serialization of two
concurrent claims where user 1 writes first, both calls report success
(instead of exactly one) and the stored claimant is simply the last
writer, user 2. -/
theorem C4_counterexample_db_both_succeed :
    (DbProblems.claim_problem [p0] 1 (some 1)).2 = Res.success ∧
    (DbProblems.claim_problem (DbProblems.claim_problem [p0] 1 (some 1)).1
      1 (some 2)).2 = Res.success ∧
    findProblem (DbProblems.claim_problem
      (DbProblems.claim_problem [p0] 1 (some 1)).1 1 (some 2)).1 1
      = some { p0 with claimedBy := some 2, status := "In Progress" } := by
  decide

end Tracker
